import Mathlib

/-!
# Verification development for the Lark-Base-Tool schema provisioning pipeline

Shallow embedding of the core of `src/functions/[[path]].js` (the improved
revision, lines 1-1401): the AI schema generator with its multi-strategy JSON
recovery and retry loop (`generateSchemaFromAI`), the Lark API client with its
retry/backoff policy (`apiCall`), the field type mapper (`getFieldProperty`),
the sample data synthesizer (`generateDummyData`), the batch record inserter
(`addSampleRecords`) and the per-table provisioning orchestrator
(`handleApiPost`).

External effects (HTTP fetches, the AI endpoint, `Math.random` dates) are
modelled as explicit oracle parameters; `sleep` calls are recorded as a trace
of wait durations where a claim is about backoff, and dropped otherwise.
JavaScript strings are modelled as Lean `String`s (lengths are counted in
code points; all concrete inputs used below stay in the ASCII/BMP range where
the two notions agree).
-/

namespace LarkBaseTool

/-- JSON whitespace accepted between tokens by `JSON.parse`
(space, tab, line feed, carriage return). -/
def jsonWsChar (c : Char) : Bool :=
  c = ' ' || c = '\t' || c = '\n' || c = '\r'

/-- The character class `\s` of JavaScript regular expressions and the set
trimmed by `String.prototype.trim`: ASCII whitespace, NBSP, the Unicode
space separators, line/paragraph separators and the BOM. -/
def jsWsChar (c : Char) : Bool :=
  c = ' ' || c = '\t' || c = '\n' || c = '\r' ||
  c.val = 11 || c.val = 12 || c.val = 160 || c.val = 0x1680 ||
  (0x2000 ≤ c.val && c.val ≤ 0x200A) || c.val = 0x2028 || c.val = 0x2029 ||
  c.val = 0x202F || c.val = 0x205F || c.val = 0x3000 || c.val = 0xFEFF

/-- Drop leading and trailing `\s` characters from a character list. -/
def trimCharsJs (cs : List Char) : List Char :=
  ((cs.dropWhile (jsWsChar ·)).reverse.dropWhile (jsWsChar ·)).reverse

/-- JavaScript `String.prototype.trim`. -/
def jsTrim (s : String) : String :=
  String.mk (trimCharsJs s.data)

/-- JavaScript `String.prototype.toLowerCase`, restricted to the ASCII range
(every type name the mapper recognises is ASCII). -/
def jsToLower (s : String) : String :=
  String.mk (s.data.map Char.toLower)

/-- Values produced by `JSON.parse`.  Numbers are kept as their source
lexeme: none of the verified code performs arithmetic on parsed numbers, only
truthiness tests, so the syntactic form is sufficient and avoids modelling
IEEE floating point. -/
inductive JsonVal where
  | jnull : JsonVal
  | jbool : Bool → JsonVal
  | jnum : String → JsonVal
  | jstr : String → JsonVal
  | jarr : List JsonVal → JsonVal
  | jobj : List (String × JsonVal) → JsonVal

/-- Skip JSON inter-token whitespace. -/
def skipWsJson (cs : List Char) : List Char :=
  cs.dropWhile (jsonWsChar ·)

/-- Value of a hexadecimal digit. -/
def hexVal (c : Char) : Option Nat :=
  if '0' ≤ c ∧ c ≤ '9' then some (c.toNat - 48)
  else if 'a' ≤ c ∧ c ≤ 'f' then some (c.toNat - 87)
  else if 'A' ≤ c ∧ c ≤ 'F' then some (c.toNat - 55)
  else none

/-- Parse the body of a JSON string literal (the opening quote already
consumed); returns the decoded content and the input after the closing
quote.  Surrogate `\u` escapes are not modelled (no input below uses them);
raw control characters are rejected as in `JSON.parse`. -/
def parseStrBody (cs : List Char) : Option (List Char × List Char) :=
  match cs with
  | [] => none
  | '"' :: rest => some ([], rest)
  | '\\' :: e :: rest =>
    if e = '"' then (parseStrBody rest).map (fun p => ('"' :: p.1, p.2))
    else if e = '\\' then (parseStrBody rest).map (fun p => ('\\' :: p.1, p.2))
    else if e = '/' then (parseStrBody rest).map (fun p => ('/' :: p.1, p.2))
    else if e = 'b' then (parseStrBody rest).map (fun p => (Char.ofNat 8 :: p.1, p.2))
    else if e = 'f' then (parseStrBody rest).map (fun p => (Char.ofNat 12 :: p.1, p.2))
    else if e = 'n' then (parseStrBody rest).map (fun p => ('\n' :: p.1, p.2))
    else if e = 'r' then (parseStrBody rest).map (fun p => ('\r' :: p.1, p.2))
    else if e = 't' then (parseStrBody rest).map (fun p => ('\t' :: p.1, p.2))
    else if e = 'u' then
      match rest with
      | h1 :: h2 :: h3 :: h4 :: rest2 =>
        match hexVal h1, hexVal h2, hexVal h3, hexVal h4 with
        | some a, some b, some c, some d =>
          let n := ((a * 16 + b) * 16 + c) * 16 + d
          if n < 0xD800 ∨ 0xE000 ≤ n then
            (parseStrBody rest2).map (fun p => (Char.ofNat n :: p.1, p.2))
          else none
        | _, _, _, _ => none
      | _ => none
    else none
  | c :: rest =>
    if c = '\\' ∨ c.val < 32 then none
    else (parseStrBody rest).map (fun p => (c :: p.1, p.2))

/-- Longest digit run at the head of the input. -/
def spanDigits (cs : List Char) : List Char × List Char :=
  (cs.takeWhile Char.isDigit, cs.dropWhile Char.isDigit)

/-- Optional exponent part of a JSON number lexeme. -/
def parseExpPart (acc : List Char) (cs : List Char) :
    Option (List Char × List Char) :=
  match cs with
  | e :: t =>
    if e = 'e' ∨ e = 'E' then
      let sg : List Char × List Char :=
        match t with
        | '+' :: u => (['+'], u)
        | '-' :: u => (['-'], u)
        | _ => ([], t)
      let ds := spanDigits sg.2
      if ds.1 = [] then none else some (acc ++ e :: sg.1 ++ ds.1, ds.2)
    else some (acc, cs)
  | [] => some (acc, cs)

/-- Optional fraction part of a JSON number lexeme, then the exponent. -/
def parseFracPart (acc : List Char) (cs : List Char) :
    Option (List Char × List Char) :=
  match cs with
  | '.' :: t =>
    let ds := spanDigits t
    if ds.1 = [] then none else parseExpPart (acc ++ '.' :: ds.1) ds.2
  | _ => parseExpPart acc cs

/-- JSON number lexeme: `-? (0 | [1-9][0-9]*) frac? exp?`. -/
def parseNumLex (cs : List Char) : Option (List Char × List Char) :=
  let sgn : List Char × List Char :=
    match cs with
    | '-' :: t => (['-'], t)
    | _ => ([], cs)
  match sgn.2 with
  | [] => none
  | d :: t =>
    if d = '0' then parseFracPart (sgn.1 ++ ['0']) t
    else if d.isDigit then
      let ds := spanDigits (d :: t)
      parseFracPart (sgn.1 ++ ds.1) ds.2
    else none

mutual

/-- Parse one JSON value (no leading whitespace); fuel-based recursion. -/
def parseVal : Nat → List Char → Option (JsonVal × List Char)
  | 0, _ => none
  | fuel + 1, cs =>
    match cs with
    | 'n' :: 'u' :: 'l' :: 'l' :: rest => some (.jnull, rest)
    | 't' :: 'r' :: 'u' :: 'e' :: rest => some (.jbool true, rest)
    | 'f' :: 'a' :: 'l' :: 's' :: 'e' :: rest => some (.jbool false, rest)
    | '"' :: rest =>
      match parseStrBody rest with
      | some p => some (.jstr (String.mk p.1), p.2)
      | none => none
    | '[' :: rest =>
      match skipWsJson rest with
      | ']' :: rest2 => some (.jarr [], rest2)
      | rest2 => parseElems fuel rest2 []
    | '{' :: rest =>
      match skipWsJson rest with
      | '}' :: rest2 => some (.jobj [], rest2)
      | rest2 => parseMembers fuel rest2 []
    | _ =>
      match parseNumLex cs with
      | some p => some (.jnum (String.mk p.1), p.2)
      | none => none

/-- Parse the elements of a non-empty JSON array. -/
def parseElems : Nat → List Char → List JsonVal → Option (JsonVal × List Char)
  | 0, _, _ => none
  | fuel + 1, cs, acc =>
    match parseVal fuel cs with
    | none => none
    | some (v, rest) =>
      match skipWsJson rest with
      | ',' :: rest2 => parseElems fuel (skipWsJson rest2) (acc ++ [v])
      | ']' :: rest2 => some (.jarr (acc ++ [v]), rest2)
      | _ => none

/-- Parse the members of a non-empty JSON object. -/
def parseMembers : Nat → List Char → List (String × JsonVal) →
    Option (JsonVal × List Char)
  | 0, _, _ => none
  | fuel + 1, cs, acc =>
    match cs with
    | '"' :: rest =>
      match parseStrBody rest with
      | none => none
      | some (key, rest2) =>
        match skipWsJson rest2 with
        | ':' :: rest3 =>
          match parseVal fuel (skipWsJson rest3) with
          | none => none
          | some (v, rest4) =>
            match skipWsJson rest4 with
            | ',' :: rest5 =>
              parseMembers fuel (skipWsJson rest5) (acc ++ [(String.mk key, v)])
            | '}' :: rest5 => some (.jobj (acc ++ [(String.mk key, v)]), rest5)
            | _ => none
        | _ => none
    | _ => none

end

/-- Model of `JSON.parse`: a whole string parses to a value when nothing but
whitespace remains after one top-level value; `none` is a thrown
`SyntaxError`. -/
def jsonParse (s : String) : Option JsonVal :=
  match parseVal (2 * s.length + 2) (skipWsJson s.data) with
  | some (v, rest) => if skipWsJson rest = [] then some v else none
  | none => none

/-- Does this numeric lexeme denote zero (all mantissa digits `0`)?
Exponent-driven underflow to zero is not modelled; no verified check
depends on numeric truthiness. -/
def numLexIsZero (lex : String) : Bool :=
  (lex.data.takeWhile (fun c => c ≠ 'e' ∧ c ≠ 'E')).all
    (fun c => !c.isDigit || c = '0')

/-- JavaScript truthiness of a parsed JSON value. -/
def jsTruthy : JsonVal → Bool
  | .jnull => false
  | .jbool b => b
  | .jnum lex => !numLexIsZero lex
  | .jstr s => s ≠ ""
  | .jarr _ => true
  | .jobj _ => true

/-- Property lookup in a parsed JSON object: with duplicate keys,
`JSON.parse` keeps the last occurrence. -/
def jObjGet (members : List (String × JsonVal)) (key : String) :
    Option JsonVal :=
  match members with
  | [] => none
  | kv :: rest =>
    match jObjGet rest key with
    | some w => some w
    | none => if kv.1 = key then some kv.2 else none

/-- Property access `v.key`; `none` is JavaScript `undefined`. -/
def jsMember (v : JsonVal) (key : String) : Option JsonVal :=
  match v with
  | .jobj ms => jObjGet ms key
  | _ => none

/-- Truthiness of a possibly-`undefined` value. -/
def jsTruthyOpt : Option JsonVal → Bool
  | none => false
  | some v => jsTruthy v

/-! ## generateSchemaFromAI: multi-strategy JSON recovery (lines 1121-1149) -/

/-- Does `cs` start with `pat`? -/
def startsWithChars : List Char → List Char → Bool
  | [], _ => true
  | _ :: _, [] => false
  | p :: ps, c :: rest => p = c && startsWithChars ps rest

/-- Split `cs` around the first occurrence of `pat`: the part before the
match and the part after it. -/
def splitAtSub (pat : List Char) (cs : List Char) :
    Option (List Char × List Char) :=
  if startsWithChars pat cs then some ([], cs.drop pat.length)
  else
    match cs with
    | [] => none
    | c :: rest => (splitAtSub pat rest).map (fun p => (c :: p.1, p.2))

/-- The capture of the fenced-code-block regexp
`/(three backticks)json\s*([\s\S]*?)\s*(three backticks)/` applied to `s`:
everything between the first occurrence of the opening fence and the next
closing fence, with surrounding `\s` stripped (the lazy inner group together
with the greedy `\s*` on both sides amounts to trimming the region, since the
closing fence starts with a non-whitespace backtick).  `none` when the regexp does not
match. -/
def fencedExtract (s : String) : Option String :=
  match splitAtSub ("```json".data) s.data with
  | none => none
  | some q =>
    match splitAtSub ("```".data) q.2 with
    | none => none
    | some r => some (String.mk (trimCharsJs r.1))

/-- First index of character `c` in `cs` (`String.prototype.indexOf`). -/
def idxOfChar (c : Char) : List Char → Option Nat
  | [] => none
  | x :: rest =>
    if x = c then some 0 else (idxOfChar c rest).map (· + 1)

/-- Last index of character `c` in `cs` (`String.prototype.lastIndexOf`). -/
def lastIdxOfChar (c : Char) (cs : List Char) : Option Nat :=
  (idxOfChar c cs.reverse).map (fun i => cs.length - 1 - i)

/-- Strategy (iii) of the recovery ladder: take the substring from the first
`{` to the last `}` and parse it; `none` covers both "no brace pair found"
(parsedData stays null) and "the substring fails to parse" (the `e3` catch
rethrows) — either way the attempt fails. -/
def strat3 (s : String) : Option JsonVal :=
  match idxOfChar '{' s.data, lastIdxOfChar '}' s.data with
  | some firstBrace, some lastBrace =>
    if firstBrace < lastBrace then
      jsonParse (String.mk ((s.data.drop firstBrace).take (lastBrace + 1 - firstBrace)))
    else none
  | _, _ => none

/-- The nested try/catch ladder of `generateSchemaFromAI` that turns the raw
AI text into a parsed value.  The catch of strategy (ii) only fires when
`JSON.parse` on a found, non-empty capture throws; when the regexp does not
match (or the capture is empty, which is falsy) no exception is raised,
`parsedData` stays `null`, and strategy (iii) is never attempted. -/
def parseAIText (s : String) : Option JsonVal :=
  match jsonParse s with
  | some v => some v
  | none =>
    match fencedExtract s with
    | none => none
    | some inner =>
      if inner = "" then none
      else
        match jsonParse inner with
        | some v => some v
        | none => strat3 s

/-- The shape validation after parsing (lines 1147-1158): the parsed value
itself must be truthy, `baseName` and `tables` must be truthy, `tables` must
be an array and must be non-empty. -/
def validStructure (v : JsonVal) : Bool :=
  if !(jsTruthyOpt (jsMember v "baseName")) then false
  else if !(jsTruthyOpt (jsMember v "tables")) then false
  else
    match jsMember v "tables" with
    | some (.jarr xs) => xs.length != 0
    | _ => false

/-! ## generateSchemaFromAI: retry loop (lines 1095-1177) -/

/-- What one Gemini fetch produced, as seen by the retry loop. -/
inductive AttemptOutcome where
  | fetchFail : AttemptOutcome
  | noText : AttemptOutcome
  | text : String → AttemptOutcome

/-- One attempt of the loop body: a fetch failure or missing
`candidates[0].content.parts[0].text` throws; otherwise the text goes
through the recovery ladder, the null/falsy check, and the shape
validation. `none` means the attempt threw, `some` means the attempt
returned the schema. -/
def processAttempt : AttemptOutcome → Option JsonVal
  | .fetchFail => none
  | .noText => none
  | .text raw =>
    match parseAIText raw with
    | none => none
    | some v =>
      if !(jsTruthy v) then none
      else if validStructure v then some v else none

/-- Observable result of one run of `generateSchemaFromAI`: the returned
schema (`none` = the final wrapped error was thrown), the number of attempts
executed, and the backoff waits taken between attempts. -/
structure GenRun where
  schema : Option JsonVal
  attemptsMade : Nat
  sleeps : List Nat

/-- The retry loop from the current `attempt` (1-based) with the given fuel
(number of loop iterations remaining; the source bound is the literal 5).
On failure before the 5th attempt it sleeps `1000 * 2 ^ (attempt - 1)` ms
and retries; after the 5th failed attempt the wrapped last error is
thrown. -/
def genAux (oracle : Nat → AttemptOutcome) (attempt : Nat) :
    Nat → GenRun
  | 0 => { schema := none, attemptsMade := 0, sleeps := [] }
  | fuel + 1 =>
    match processAttempt (oracle attempt) with
    | some v => { schema := some v, attemptsMade := 1, sleeps := [] }
    | none =>
      if attempt < 5 then
        let rest := genAux oracle (attempt + 1) fuel
        { schema := rest.schema, attemptsMade := rest.attemptsMade + 1,
          sleeps := 1000 * 2 ^ (attempt - 1) :: rest.sleeps }
      else { schema := none, attemptsMade := 1, sleeps := [] }

/-- Model of `generateSchemaFromAI` as a function of the per-attempt fetch
oracle (the `apiKey` guard is outside the loop and not modelled here). -/
def generateSchemaRun (oracle : Nat → AttemptOutcome) : GenRun :=
  genAux oracle 1 5

/-! ## apiCall: the Lark API client retry policy (lines 1182-1228) -/

/-- What one Lark fetch produced: a rejected promise (network error or
`response.json()` failure), a non-ok HTTP status, or a parsed body carrying
the application `code`, `msg` and data payload. -/
inductive LarkOutcome (δ : Type) where
  | netFail : String → LarkOutcome δ
  | httpErr : Nat → LarkOutcome δ
  | appResp : Int → String → δ → LarkOutcome δ

/-- An error surfaced by `apiCall`. -/
inductive ApiErr where
  | exn : String → ApiErr
  | httpStatus : Nat → ApiErr
  | larkCode : Int → String → ApiErr
deriving DecidableEq

/-- How an `apiCall` invocation ends: a returned payload, a thrown error, or
`undefined` (the for-loop exhausted without returning or throwing). -/
inductive CallOutcome (δ : Type) where
  | ok : δ → CallOutcome δ
  | err : ApiErr → CallOutcome δ
  | undef : CallOutcome δ

/-- Observable result of one `apiCall` run: its outcome and the waits taken
between attempts. -/
structure ApiRun (δ : Type) where
  outcome : CallOutcome δ
  sleeps : List Nat

/-- The `apiCall` retry loop from `attempt` (1-based) with the given fuel
(`retries - attempt + 1` iterations remain).  HTTP 429 sleeps
`1000 * 2 ^ attempt` and `continue`s unconditionally — also on the final
attempt, after which the loop exits and the function returns `undefined`.
Every other failure throws; the catch rethrows on the final attempt and
otherwise sleeps `1000 * attempt` before the next attempt.  Application code
99991400 sleeps `1000 * attempt` and retries only when `attempt < retries`. -/
def apiAux {δ : Type} (oracle : Nat → LarkOutcome δ) (retries : Nat) :
    Nat → Nat → ApiRun δ
  | _, 0 => { outcome := .undef, sleeps := [] }
  | attempt, fuel + 1 =>
    match oracle attempt with
    | .netFail e =>
      if attempt = retries then { outcome := .err (.exn e), sleeps := [] }
      else
        let rest := apiAux oracle retries (attempt + 1) fuel
        { outcome := rest.outcome, sleeps := 1000 * attempt :: rest.sleeps }
    | .httpErr status =>
      if status = 429 then
        let rest := apiAux oracle retries (attempt + 1) fuel
        { outcome := rest.outcome, sleeps := 1000 * 2 ^ attempt :: rest.sleeps }
      else if attempt = retries then
        { outcome := .err (.httpStatus status), sleeps := [] }
      else
        let rest := apiAux oracle retries (attempt + 1) fuel
        { outcome := rest.outcome, sleeps := 1000 * attempt :: rest.sleeps }
    | .appResp code msg d =>
      if code = 0 then { outcome := .ok d, sleeps := [] }
      else if code = 99991400 ∧ attempt < retries then
        let rest := apiAux oracle retries (attempt + 1) fuel
        { outcome := rest.outcome, sleeps := 1000 * attempt :: rest.sleeps }
      else if attempt = retries then
        { outcome := .err (.larkCode code msg), sleeps := [] }
      else
        let rest := apiAux oracle retries (attempt + 1) fuel
        { outcome := rest.outcome, sleeps := 1000 * attempt :: rest.sleeps }

/-- Model of `apiCall(token, path, options)` as a function of the
per-attempt fetch oracle; the source default for `retries` is 3. -/
def apiCall {δ : Type} (oracle : Nat → LarkOutcome δ) (retries : Nat) :
    ApiRun δ :=
  apiAux oracle retries 1 retries

/-! ## getFieldProperty: the field type mapper (lines 1311-1349) -/

/-- The type-specific `property` bag of a Lark field payload. -/
inductive FieldProp where
  | noProp : FieldProp
  | numberFmt : String → FieldProp
  | optionNames : List String → FieldProp
  | dateFmt : String → FieldProp
  | memberMultiple : Bool → FieldProp
  | currencyFmt : String → String → FieldProp
  | ratingSymbol : String → FieldProp
deriving DecidableEq

/-- A `{ type, property }` pair as sent to the fields endpoint. -/
structure FieldPayload where
  type : Nat
  property : FieldProp
deriving DecidableEq

/-- Worker for the comma split. -/
def splitCommaAux : List Char → List Char → List String
  | [], cur => [String.mk cur.reverse]
  | c :: rest, cur =>
    if c = ',' then String.mk cur.reverse :: splitCommaAux rest []
    else splitCommaAux rest (c :: cur)

/-- JavaScript `"s".split(",")`: splits on every comma and keeps empty
pieces (the empty string splits to one empty piece). -/
def jsSplitComma (s : String) : List String :=
  splitCommaAux s.data []

/-- The local `getOptions` helper: the option string under the fixed key
`オプション`, split on commas, entries trimmed, empty names dropped; `[]`
when the key is absent or its value is the empty string. -/
def getOptionsJs (options : List (String × String))
    (key : String) : List String :=
  match options.lookup key with
  | some opts =>
    if opts ≠ "" then ((jsSplitComma opts).map jsTrim).filter (· ≠ "") else []
  | none => []

/-- Result of the JavaScript property read `typeMap[lowered]`.  The object
literal `typeMap` inherits from `Object.prototype`, so besides its thirteen
own keys the read can hit an inherited member — a truthy function or object
that carries no `type` or `property` own fields (`proto`, tagged with the
member name); the third case is the `undefined` read: the key is neither an
own key nor a prototype member. -/
inductive MapHit where
  | own : FieldPayload → MapHit
  | proto : String → MapHit
  | undefined : MapHit
deriving DecidableEq

/-- The member names of `Object.prototype` reachable by a property read on
an object literal. -/
def protoMembers : List String :=
  ["constructor", "hasOwnProperty", "isPrototypeOf", "propertyIsEnumerable",
   "toLocaleString", "toString", "valueOf", "__proto__", "__defineGetter__",
   "__defineSetter__", "__lookupGetter__", "__lookupSetter__"]

/-- The skip test `if (!fieldPayload)` of the provisioning loop: only the
`undefined` result is falsy; own payloads and inherited prototype members
are objects or functions, hence truthy and NOT skipped. -/
def isSkipSignal : MapHit → Bool
  | .undefined => true
  | _ => false

/-- The `typeMap` lookup keyed by the lower-cased type name: first the
thirteen own keys, then the prototype chain of the object literal, then
`undefined`. -/
def typeMapLookup (lowered : String) (options : List (String × String)) :
    MapHit :=
  if lowered = "text" then .own ⟨1, .noProp⟩
  else if lowered = "number" then .own ⟨2, .numberFmt "0"⟩
  else if lowered = "single_select" then
    .own ⟨3, .optionNames (getOptionsJs options "オプション")⟩
  else if lowered = "multi_select" then
    .own ⟨4, .optionNames (getOptionsJs options "オプション")⟩
  else if lowered = "date" then .own ⟨5, .dateFmt "yyyy/MM/dd"⟩
  else if lowered = "date_time" then .own ⟨5, .dateFmt "yyyy/MM/dd HH:mm"⟩
  else if lowered = "checkbox" then .own ⟨7, .noProp⟩
  else if lowered = "member" then .own ⟨11, .memberMultiple false⟩
  else if lowered = "phone" then .own ⟨13, .noProp⟩
  else if lowered = "url" then .own ⟨15, .noProp⟩
  else if lowered = "email" then .own ⟨23, .noProp⟩
  else if lowered = "currency" then .own ⟨25, .currencyFmt "JPY" "#,##0"⟩
  else if lowered = "rating" then .own ⟨26, .ratingSymbol "star"⟩
  else if protoMembers.contains lowered then .proto lowered
  else .undefined

/-- Model of `getFieldProperty(type, options)`: the `typeMap` lookup uses the
lower-cased name, but the patch that substitutes the three default options
for an empty option list compares the ORIGINAL `type` string with
the literal names `single_select` and `multi_select` case-sensitively
(source lines 1339-1346).  When `type` is exactly one of those two names
the lookup necessarily hit the corresponding own key, so the non-`own`
arms of the inner match are dead code (in the source they would throw on
`result.property`); they pass the result through unchanged. -/
def getFieldProperty (type : String) (options : List (String × String)) :
    MapHit :=
  let result := typeMapLookup (jsToLower type) options
  if type = "single_select" ∨ type = "multi_select" then
    match result with
    | .own p =>
      match p.property with
      | .optionNames ns =>
        if ns.length = 0 then
          .own ⟨p.type, .optionNames ["オプション1", "オプション2", "オプション3"]⟩
        else .own p
      | _ => .own p
    | other => other
  else result

/-! ## generateDummyData: the sample data synthesizer (lines 1351-1401) -/

/-- A synthesized cell value. -/
inductive DummyVal where
  | str : String → DummyVal
  | num : Int → DummyVal
  | boolean : Bool → DummyVal
  | strs : List String → DummyVal
deriving DecidableEq

/-- The select-option list: the string under the key オプション (empty when
absent), split on commas, entries trimmed, empty entries dropped. -/
def selectOptionsOf (options : List (String × String)) : List String :=
  ((jsSplitComma ((options.lookup "オプション").getD "")).map jsTrim).filter
    (· ≠ "")

/-- Model of `generateDummyData(type, options, index)`.  The date branches draw a
pseudo-random timestamp within ±30 days of now; that draw is the explicit
`dateNow` oracle argument here (`Math.random` and the current clock are
environment inputs), every other branch is deterministic. -/
def generateDummyData (type : String) (options : List (String × String))
    (index : Nat) (dateNow : Int) : Option DummyVal :=
  let i := index + 1
  let selectOptions := selectOptionsOf options
  match jsToLower type with
  | "text" => some (.str ("サンプル" ++ toString i))
  | "email" => some (.str ("sample" ++ toString i ++ "@example.com"))
  | "phone" => some (.str ("090-1234-567" ++ toString (index % 10)))
  | "number" => some (.num (100 + (i : Int) * 50))
  | "currency" => some (.num (10000 * (i : Int)))
  | "single_select" =>
    if selectOptions.length > 0 then
      some (.str (selectOptions.getD (index % selectOptions.length) ""))
    else some (.str ("オプション" ++ toString (index % 3 + 1)))
  | "multi_select" =>
    if selectOptions.length > 0 then
      let numSelect := min 2 selectOptions.length
      some (.strs ((List.range numSelect).foldl (fun acc j =>
        let opt := selectOptions.getD ((index + j) % selectOptions.length) ""
        if acc.contains opt then acc else acc ++ [opt]) []))
    else some (.strs ["オプション" ++ toString (index % 3 + 1)])
  | "date" => some (.num dateNow)
  | "date_time" => some (.num dateNow)
  | "checkbox" => some (.boolean (i % 2 = 0))
  | "url" => some (.str ("https://example.com/item/" ++ toString i))
  | "rating" => some (.num ((index % 5 : Nat) + 1))
  | _ => none

/-! ## addSampleRecords: row synthesis and batch insertion (lines 1263-1309) -/

/-- An abstract field declaration as consumed by the provisioning loop
(`field.name`, `field.type`, `field.options || {}`). -/
structure FieldSpec where
  name : String
  type : String
  options : List (String × String)

/-- JavaScript object assignment `obj[key] = v` on a key-ordered
association list: a later field with the same name overwrites. -/
def jsObjSet (obj : List (String × DummyVal)) (key : String) (v : DummyVal) :
    List (String × DummyVal) :=
  if obj.any (·.1 = key) then
    obj.map (fun kv => if kv.1 = key then (key, v) else kv)
  else obj ++ [(key, v)]

/-- The `recordFields` object synthesized for row `i`: fields whose
synthesizer returns `null` are omitted. -/
def buildRow (fields : List FieldSpec) (i : Nat) (dv : Nat → Int) :
    List (String × DummyVal) :=
  fields.enum.foldl (fun acc jf =>
    match generateDummyData jf.2.type jf.2.options i (dv jf.1) with
    | some d => jsObjSet acc jf.2.name d
    | none => acc) []

/-- The `records` batch list: rows whose `recordFields` object has zero keys
are dropped before insertion. -/
def buildRecords (fields : List FieldSpec) (count : Nat)
    (dv : Nat → Nat → Int) : List (List (String × DummyVal)) :=
  (List.range count).foldl (fun acc i =>
    let row := buildRow fields i (dv i)
    if row.length > 0 then acc ++ [row] else acc) []

/-- Worker for the chunk split, with explicit fuel. -/
def chunksAux {α : Type} : Nat → List α → List (List α)
  | 0, _ => []
  | _, [] => []
  | fuel + 1, x :: rest => (x :: rest).take 10 :: chunksAux fuel (rest.drop 9)

/-- Split into chunks of the fixed `batchSize = 10` (fuel keeps the
recursion structural; one unit of fuel per chunk suffices). -/
def chunks10 {α : Type} (l : List α) : List (List α) :=
  chunksAux l.length l

/-- Observable result of `addSampleRecords`: the accumulated
`data.records` of the returned value and the number of `batch_create`
calls issued. -/
structure AddRun where
  records : List String
  apiCalls : Nat
deriving DecidableEq

/-- Model of `addSampleRecords(token, appToken, tableId, fields, count)`.
The batch
oracle gives the result of each `batch_create` call: `some recs` when the call
returned and `result.data?.records || []` yielded `recs`; `none` when the
call threw (a failed batch is logged and skipped).  `dv` is the random-date
oracle by row and field position. -/
def addSampleRecords (bc : Nat → Option (List String))
    (fields : List FieldSpec) (count : Int) (dv : Nat → Nat → Int) : AddRun :=
  if count ≤ 0 ∨ fields.length = 0 then { records := [], apiCalls := 0 }
  else
    let records := buildRecords fields count.toNat dv
    if records.length = 0 then { records := [], apiCalls := 0 }
    else
      let batches := chunks10 records
      { records := batches.enum.foldl (fun acc b =>
          match bc b.1 with
          | some recs => acc ++ recs
          | none => acc) [],
        apiCalls := batches.length }

/-! ## handleApiPost: validation and the provisioning orchestrator
(lines 28-172) -/

/-- An abstract table declaration from the generated schema. -/
structure TableSpec where
  name : String
  fields : List FieldSpec
  sampleDataCount : Int

/-- Result of the table-creation `apiCall` for one table: it returned data
carrying `table_id`, it threw, or it returned `undefined` (in which case
reading `.data` throws a TypeError inside the per-table try). -/
inductive TcResult where
  | created : String → TcResult
  | threw : String → TcResult
  | undefRet : TcResult

/-- Oracles for the remote calls of the provisioning loop.  A field-creation
entry of `some msg` means that `apiCall` threw `msg` (the field is skipped);
`none` means the call completed without throwing (the field is counted). -/
structure Orc where
  createTable : Nat → TcResult
  createField : Nat → Nat → Option String
  batchCreate : Nat → Nat → Option (List String)
  dateVal : Nat → Nat → Nat → Int

/-- One per-table entry of the `results` array. -/
structure TableResult where
  tableName : String
  status : String
  tableId : Option String
  fieldsCreated : Option Nat
  recordsAdded : Option Nat
  error : Option String
deriving DecidableEq

/-- The inner field-creation loop: only an `undefined` lookup result fails
the `if (!fieldPayload)` test and is skipped with a warning — an inherited
prototype hit is truthy, so its creation call is still attempted (with an
undefined type code); a throwing creation call is caught, logged and
skipped; every non-throwing call increments `fieldsCreated`. -/
def countFields (orc : Orc) (tIdx : Nat) (fields : List FieldSpec) : Nat :=
  fields.enum.foldl (fun n jf =>
    match getFieldProperty jf.2.type jf.2.options with
    | .undefined => n
    | _ =>
      match orc.createField tIdx jf.1 with
      | some _ => n
      | none => n + 1) 0

/-- The body of one iteration of the table loop, including its try/catch:
a throwing (or `undefined`-returning) table creation is recorded as
`Failed`; otherwise sample records are added when `sampleDataCount > 0` and
at least one field was created, and the table is recorded as `Success`
whatever happened to its fields and records. -/
def processTable (orc : Orc) (tIdx : Nat) (t : TableSpec) : TableResult :=
  match orc.createTable tIdx with
  | .threw msg =>
    { tableName := t.name, status := "Failed", tableId := none,
      fieldsCreated := none, recordsAdded := none, error := some msg }
  | .undefRet =>
    { tableName := t.name, status := "Failed", tableId := none,
      fieldsCreated := none, recordsAdded := none,
      error := some "TypeError: Cannot read properties of undefined" }
  | .created tid =>
    let fieldsCreated := countFields orc tIdx t.fields
    let recordsAdded :=
      if t.sampleDataCount > 0 ∧ fieldsCreated > 0 then
        (addSampleRecords (orc.batchCreate tIdx) t.fields
          (min t.sampleDataCount 20) (orc.dateVal tIdx)).records.length
      else 0
    { tableName := t.name, status := "Success", tableId := some tid,
      fieldsCreated := some fieldsCreated, recordsAdded := some recordsAdded,
      error := none }

/-- The sequential table loop (`for (let i = 0; ...)`): the failure of an
iteration is caught inside that iteration, so the loop always visits every
table. -/
def provisionTables (orc : Orc) : List TableSpec → Nat → List TableResult
  | [], _ => []
  | t :: rest, i => processTable orc i t :: provisionTables orc rest (i + 1)

/-- Result of `generateSchemaFromAI` as seen by `handleApiPost`: either it
threw, or it returned a schema, viewed through the §3 contract shape. -/
inductive AiOutcome where
  | threw : String → AiOutcome
  | ok : String → List TableSpec → AiOutcome

/-- Result of `createBaseApp`. -/
inductive BaseOutcome where
  | created : String → String → BaseOutcome
  | threw : String → BaseOutcome
  | undefRet : BaseOutcome

/-- All the oracles `handleApiPost` consults. -/
structure Env where
  ai : AiOutcome
  token : Except String String
  base : BaseOutcome
  orc : Orc

/-- Externally visible remote interactions, for stating that a rejected
request makes none. -/
inductive Step where
  | aiCall : Step
  | tokenCall : Step
  | baseCreate : Step
  | tableCreate : Nat → Step
deriving DecidableEq

/-- The summary block of the success response. -/
structure Summary where
  totalTables : Nat
  successfulTables : Nat
  failedTables : Nat
deriving DecidableEq

/-- The HTTP response: 200 with payload, or 500 with a user message. -/
inductive HttpResp where
  | okResp : String → String → Summary → List TableResult → HttpResp
  | errResp : String → HttpResp
deriving DecidableEq

/-- Substring test (`String.prototype.includes`). -/
def hasSub (pat s : String) : Bool :=
  (splitAtSub pat.data s.data).isSome

/-- The user-facing message rewriting of the catch block (lines 150-161). -/
def userMessage (msg : String) : String :=
  if hasSub "GEMINI_API_KEY" msg then
    "AI機能の設定に問題があります。管理者にお問い合わせください。"
  else if hasSub "tenant_access_token" msg then
    "Lark APIの認証に失敗しました。設定を確認してください。"
  else if hasSub "rate limit" msg || hasSub "429" msg then
    "APIの利用制限に達しました。しばらく待ってから再試行してください。"
  else msg

/-- Model of `handleApiPost`: validation, AI schema generation, token acquisition,
base creation, then the per-table provisioning loop; every thrown error is
caught and mapped to a 500 response.  The second component records which
remote interactions were started. -/
def handleApiPost (prompt : Option String) (env : Env) :
    HttpResp × List Step :=
  match prompt with
  | none => (.errResp (userMessage "指示内容を入力してください。"), [])
  | some p =>
    if p = "" ∨ (jsTrim p).length = 0 then
      (.errResp (userMessage "指示内容を入力してください。"), [])
    else if p.length > 2000 then
      (.errResp (userMessage "指示内容が長すぎます。2000文字以内で入力してください。"), [])
    else
      match env.ai with
      | .threw msg => (.errResp (userMessage msg), [.aiCall])
      | .ok baseName tables =>
        if baseName = "" ∨ tables.length = 0 then
          (.errResp (userMessage "AIによるBase構成の生成に失敗しました。指示内容をより具体的にしてください。"),
           [.aiCall])
        else if tables.length > 10 then
          (.errResp (userMessage "テーブル数が多すぎます。10個以下になるよう指示内容を調整してください。"),
           [.aiCall])
        else
          match env.token with
          | .error msg => (.errResp (userMessage msg), [.aiCall, .tokenCall])
          | .ok _tok =>
            match env.base with
            | .threw msg =>
              (.errResp (userMessage msg), [.aiCall, .tokenCall, .baseCreate])
            | .undefRet =>
              (.errResp (userMessage "TypeError: Cannot read properties of undefined"),
               [.aiCall, .tokenCall, .baseCreate])
            | .created _appTok url =>
              let results := provisionTables env.orc tables 0
              (.okResp baseName url
                { totalTables := tables.length,
                  successfulTables :=
                    (results.filter (·.status = "Success")).length,
                  failedTables :=
                    (results.filter (·.status = "Failed")).length }
                results,
               [.aiCall, .tokenCall, .baseCreate] ++
                 (List.range tables.length).map .tableCreate)

/-! ## Concrete inputs used by counterexamples and witnesses -/

/-- AI response text that defeats the recovery ladder: not JSON as a whole,
no fenced block, but a brace-delimited JSON object inside. -/
def strat3SkippedText : String :=
  "The schema is \x7b\"baseName\":\"B\",\"tables\":[1]\x7d thanks"

/-- AI response text with a fenced block whose content is not JSON, and
valid brace-delimited content impossible to reach by strategy (iii) alone
(the whole-text brace span is unparseable). -/
def fencedBadText : String :=
  "pre ```json\n\x7boops\n``` \x7b\"a\":1\x7d post"

/-! ## C1: order and reachability of the three parse strategies -/

/-- C1, counterexample: on a response whose whole text is not JSON and
that contains no fenced block, the attempt is counted as a parse failure
even though strategy (iii) (first `\x7b` to last `\x7d`) succeeds on it —
so strategy (iii) is NOT attempted whenever (i) and (ii) fail, and a parse
failure does not imply that all three strategies failed. -/
theorem parseAIText_skips_strategy_three_cex :
    parseAIText strat3SkippedText = none ∧
    (strat3 strat3SkippedText).isSome = true :=
  ⟨rfl, rfl⟩

/-- C1, amended: `generateSchemaFromAI` tries (i) whole-text `JSON.parse`,
then (ii) extraction of a fenced `json` block; the first success wins.
Strategy (iii) (brace-span parse) is attempted only when a fenced block
with non-empty content was found and its content failed to parse; when no
fenced block exists (or its capture is empty) the attempt fails without
ever trying strategy (iii). -/
theorem parseAIText_strategy_order (s : String) :
    (∀ v, jsonParse s = some v → parseAIText s = some v) ∧
    (jsonParse s = none → fencedExtract s = none → parseAIText s = none) ∧
    (jsonParse s = none → fencedExtract s = some "" → parseAIText s = none) ∧
    (∀ inner v, jsonParse s = none → fencedExtract s = some inner →
      inner ≠ "" → jsonParse inner = some v → parseAIText s = some v) ∧
    (∀ inner, jsonParse s = none → fencedExtract s = some inner →
      inner ≠ "" → jsonParse inner = none → parseAIText s = strat3 s) := by
  refine ⟨?_, ?_, ?_, ?_, ?_⟩ <;> intros <;> simp_all [parseAIText]

/-- Witness for C1 at a concrete response: the fenced block content
`\x7boops` fails to parse, so the attempt falls through to strategy
(iii). -/
theorem parseAIText_strategy_order_witness :
    parseAIText fencedBadText = strat3 fencedBadText :=
  (parseAIText_strategy_order fencedBadText).2.2.2.2 "\x7boops" rfl rfl
    (by decide) rfl

/-! ## C3: the select synthesizer and its options key -/

/-- C3, counterexample: the synthesizer reads the option string from the
key オプション, not 選択肢文字列; with the option string stored under
選択肢文字列 as the claim states, row 0 yields the generic fallback
オプション1, not A. -/
theorem generateDummyData_options_key_cex :
    generateDummyData "single_select" [("選択肢文字列", "A,B,C")] 0 0 =
      some (.str "オプション1") ∧
    generateDummyData "single_select" [("選択肢文字列", "A,B,C")] 0 0 ≠
      some (.str "A") := by
  exact ⟨rfl, by decide⟩

/-- C3, amended: with the option string "A,B,C" stored under the fixed
options key オプション, the single_select synthesizer cycles through
["A", "B", "C"] with period 3; in general it returns the parsed option at
position `rowIndex mod optionCount`, or the generic fallback when no
options were declared. -/
theorem generateDummyData_select_cycles :
    (∀ (options : List (String × String)) (i : Nat) (d : Int),
      selectOptionsOf options ≠ [] →
      generateDummyData "single_select" options i d =
        some (.str ((selectOptionsOf options).getD
          (i % (selectOptionsOf options).length) ""))) ∧
    (∀ (options : List (String × String)) (i : Nat) (d : Int),
      selectOptionsOf options = [] →
      generateDummyData "single_select" options i d =
        some (.str ("オプション" ++ toString (i % 3 + 1)))) ∧
    (∀ (i : Nat) (d : Int),
      generateDummyData "single_select" [("オプション", "A,B,C")] i d =
        some (.str (["A", "B", "C"].getD (i % 3) ""))) := by
  have hbr : ∀ (options : List (String × String)) (i : Nat) (d : Int),
      generateDummyData "single_select" options i d =
        if 0 < (selectOptionsOf options).length then
          some (.str ((selectOptionsOf options).getD
            (i % (selectOptionsOf options).length) ""))
        else some (.str ("オプション" ++ toString (i % 3 + 1))) := by
    intro options i d
    rfl
  refine ⟨?_, ?_, ?_⟩
  · intro options i d h
    rw [hbr, if_pos (List.length_pos.mpr h)]
  · intro options i d h
    rw [hbr, if_neg]
    simp [h]
  · intro i d
    rw [hbr]
    have hsel : selectOptionsOf [("オプション", "A,B,C")] = ["A", "B", "C"] := rfl
    rw [hsel]
    norm_num

/-- Witness for C3 at row index 3: the cycle has period 3, so row 3 gets
option A again. -/
theorem generateDummyData_select_cycles_witness :
    generateDummyData "single_select" [("オプション", "A,B,C")] 3 0 =
      some (.str "A") := by
  have h := generateDummyData_select_cycles.2.2 3 0
  simpa using h

/-! ## C5: fallback options and the case-sensitivity of the patch -/

/-- C5, counterexample: the name Single_Select matches the mapper
case-insensitively (the lookup lower-cases it), but the default-options
patch compares the original string case-sensitively, so with no declared
options the returned mapping carries an EMPTY option list. -/
theorem getFieldProperty_mixed_case_empty_options_cex :
    getFieldProperty "Single_Select" [] = .own ⟨3, .optionNames []⟩ := by
  decide

/-- C5, amended: only for the exactly-lower-case type names single_select
and multi_select with an empty or missing option string does
`getFieldProperty` substitute the non-empty fallback list of three generic
placeholder options; other casings of these names with empty options
yield an empty option list. -/
theorem getFieldProperty_default_options (options : List (String × String))
    (h : options.lookup "オプション" = none ∨
         options.lookup "オプション" = some "") :
    getFieldProperty "single_select" options =
      .own ⟨3, .optionNames ["オプション1", "オプション2", "オプション3"]⟩ ∧
    getFieldProperty "multi_select" options =
      .own ⟨4, .optionNames ["オプション1", "オプション2", "オプション3"]⟩ := by
  have hopt : getOptionsJs options "オプション" = [] := by
    rcases h with h | h <;> simp [getOptionsJs, h]
  constructor
  · have hres : typeMapLookup (jsToLower "single_select") options =
        .own ⟨3, .optionNames (getOptionsJs options "オプション")⟩ := rfl
    simp [getFieldProperty, hres, hopt]
  · have hres : typeMapLookup (jsToLower "multi_select") options =
        .own ⟨4, .optionNames (getOptionsJs options "オプション")⟩ := rfl
    simp [getFieldProperty, hres, hopt]

/-- Witness for C5 with no options object at all. -/
theorem getFieldProperty_default_options_witness :
    getFieldProperty "single_select" [] =
      .own ⟨3, .optionNames ["オプション1", "オプション2", "オプション3"]⟩ :=
  (getFieldProperty_default_options [] (Or.inl rfl)).1

/-! ## C7: the generateSchemaFromAI retry ceiling and backoff -/

/-- C7 (confirmed): when every attempt fails, `generateSchemaFromAI`
performs exactly 5 attempts before throwing the final wrapped error, and
the waits between attempts are 1000, 2000, 4000, 8000 ms — each strictly
greater than (indeed double) the previous; when the first k-1 attempts
fail and attempt k yields a valid schema, it returns that schema
immediately after k attempts, having slept only the k-1 earlier waits. -/
theorem generateSchemaFromAI_retry_spec (oracle : Nat → AttemptOutcome) :
    ((∀ a, 1 ≤ a → a ≤ 5 → processAttempt (oracle a) = none) →
      generateSchemaRun oracle =
        { schema := none, attemptsMade := 5,
          sleeps := [1000, 2000, 4000, 8000] } ∧
      (generateSchemaRun oracle).sleeps.Chain' (· < ·) ∧
      (generateSchemaRun oracle).sleeps.Chain' (fun x y => y = 2 * x)) ∧
    (∀ k v, 1 ≤ k → k ≤ 5 →
      (∀ j, 1 ≤ j → j < k → processAttempt (oracle j) = none) →
      processAttempt (oracle k) = some v →
      generateSchemaRun oracle =
        { schema := some v, attemptsMade := k,
          sleeps := (List.range (k - 1)).map (fun j => 1000 * 2 ^ j) }) := by
  constructor
  · intro h
    have e1 := h 1 (by norm_num) (by norm_num)
    have e2 := h 2 (by norm_num) (by norm_num)
    have e3 := h 3 (by norm_num) (by norm_num)
    have e4 := h 4 (by norm_num) (by norm_num)
    have e5 := h 5 (by norm_num) (by norm_num)
    have hrun : generateSchemaRun oracle =
        { schema := none, attemptsMade := 5,
          sleeps := [1000, 2000, 4000, 8000] } := by
      simp [generateSchemaRun, genAux, e1, e2, e3, e4, e5]
    refine ⟨hrun, ?_, ?_⟩ <;> rw [hrun] <;> simp [List.chain'_cons]
  · intro k v hk1 hk5 hfail hsucc
    interval_cases k
    · simp [generateSchemaRun, genAux, hsucc]
    · have e1 := hfail 1 (by norm_num) (by norm_num)
      simp [generateSchemaRun, genAux, e1, hsucc]
      decide
    · have e1 := hfail 1 (by norm_num) (by norm_num)
      have e2 := hfail 2 (by norm_num) (by norm_num)
      simp [generateSchemaRun, genAux, e1, e2, hsucc]
      decide
    · have e1 := hfail 1 (by norm_num) (by norm_num)
      have e2 := hfail 2 (by norm_num) (by norm_num)
      have e3 := hfail 3 (by norm_num) (by norm_num)
      simp [generateSchemaRun, genAux, e1, e2, e3, hsucc]
      decide
    · have e1 := hfail 1 (by norm_num) (by norm_num)
      have e2 := hfail 2 (by norm_num) (by norm_num)
      have e3 := hfail 3 (by norm_num) (by norm_num)
      have e4 := hfail 4 (by norm_num) (by norm_num)
      simp [generateSchemaRun, genAux, e1, e2, e3, e4, hsucc]
      decide

/-- Witness for C7: with an oracle whose fetches always fail, the run makes
exactly 5 attempts, throws, and slept 1000, 2000, 4000, 8000 ms. -/
theorem generateSchemaFromAI_retry_spec_witness :
    generateSchemaRun (fun _ => AttemptOutcome.fetchFail) =
      { schema := none, attemptsMade := 5,
        sleeps := [1000, 2000, 4000, 8000] } :=
  ((generateSchemaFromAI_retry_spec (fun _ => AttemptOutcome.fetchFail)).1
    (fun _ _ _ => rfl)).1

/-! ## C2: the apiCall retry policy -/

/-- The wait inserted after a failed attempt `a` before the next one:
HTTP 429 waits `1000 * 2 ^ a` (doubling per attempt), every other failure
waits `1000 * a` (growing linearly). -/
def retryWait {δ : Type} (attempt : Nat) : LarkOutcome δ → Nat
  | .httpErr s => if s = 429 then 1000 * 2 ^ attempt else 1000 * attempt
  | _ => 1000 * attempt

/-- Does this fetch outcome fail the attempt (anything but a parsed body
with application code 0)? -/
def isFailure {δ : Type} : LarkOutcome δ → Bool
  | .appResp c _ _ => c != 0
  | _ => true

/-- The error thrown when this outcome happens on the final attempt;
`none` exactly for HTTP 429, which never throws. -/
def finalThrow {δ : Type} : LarkOutcome δ → Option ApiErr
  | .netFail e => some (.exn e)
  | .httpErr s => if s = 429 then none else some (.httpStatus s)
  | .appResp c m _ => if c = 0 then none else some (.larkCode c m)

/-- Any failing attempt strictly before the last one sleeps `retryWait`
and moves on to the next attempt. -/
theorem apiAux_fail_step {δ : Type} (oracle : Nat → LarkOutcome δ)
    (retries a fuel : Nat) (ha : a < retries)
    (hf : isFailure (oracle a) = true) (hfuel : fuel ≠ 0) :
    apiAux oracle retries a fuel =
      { outcome := (apiAux oracle retries (a + 1) (fuel - 1)).outcome,
        sleeps := retryWait a (oracle a) ::
          (apiAux oracle retries (a + 1) (fuel - 1)).sleeps } := by
  obtain ⟨f, rfl⟩ : ∃ f, fuel = f + 1 :=
    ⟨fuel - 1, (Nat.succ_pred_eq_of_pos (Nat.pos_of_ne_zero hfuel)).symm⟩
  have hne : a ≠ retries := Nat.ne_of_lt ha
  cases h : oracle a with
  | netFail e => simp [apiAux, h, retryWait, hne]
  | httpErr s =>
    by_cases h429 : s = 429
    · simp [apiAux, h, retryWait, h429]
    · simp [apiAux, h, retryWait, h429, hne]
  | appResp c m d =>
    have hc : c ≠ 0 := by simpa [isFailure, h] using hf
    by_cases hrl : c = 99991400
    · simp [apiAux, h, retryWait, hc, hrl, ha, hne]
    · simp [apiAux, h, retryWait, hc, hrl, hne]

/-- A throwing outcome on the final attempt is rethrown by the catch. -/
theorem apiAux_final_throw {δ : Type} (oracle : Nat → LarkOutcome δ)
    (retries fuel : Nat) (e : ApiErr)
    (he : finalThrow (oracle retries) = some e) (hfuel : fuel ≠ 0) :
    apiAux oracle retries retries fuel =
      { outcome := .err e, sleeps := [] } := by
  obtain ⟨f, rfl⟩ : ∃ f, fuel = f + 1 :=
    ⟨fuel - 1, (Nat.succ_pred_eq_of_pos (Nat.pos_of_ne_zero hfuel)).symm⟩
  cases h : oracle retries with
  | netFail e2 =>
    rw [h] at he
    simp only [finalThrow, Option.some.injEq] at he
    simp [apiAux, h, ← he]
  | httpErr s =>
    rw [h] at he
    by_cases h429 : s = 429
    · simp [finalThrow, h429] at he
    · simp only [finalThrow, h429, if_neg, Option.some.injEq, ite_false] at he
      simp [apiAux, h, h429, ← he]
  | appResp c m d =>
    rw [h] at he
    by_cases hc : c = 0
    · simp [finalThrow, hc] at he
    · simp only [finalThrow, hc, Option.some.injEq, ite_false] at he
      simp [apiAux, h, hc, ← he]

/-- HTTP 429 on the final attempt sleeps the doubled wait, `continue`s, and
the loop then exits: the call returns `undefined`. -/
theorem apiAux_final_429 {δ : Type} (oracle : Nat → LarkOutcome δ)
    (retries : Nat) (h : oracle retries = .httpErr 429) :
    apiAux oracle retries retries 1 =
      { outcome := .undef, sleeps := [1000 * 2 ^ retries] } := by
  simp [apiAux, h]

/-- C2, amended: with the default retry ceiling of 3, when all three
attempts fail, `apiCall` throws the last observed error — EXCEPT when the
final attempt receives HTTP 429, in which case it sleeps the doubled
backoff wait and then returns `undefined` instead of throwing.  The wait
after a 429 doubles per attempt (`1000 * 2 ^ attempt`); the wait after any
other HTTP or network failure grows linearly (`1000 * attempt`). -/
theorem apiCall_retry_policy {δ : Type} (oracle : Nat → LarkOutcome δ)
    (h1 : isFailure (oracle 1) = true) (h2 : isFailure (oracle 2) = true) :
    (∀ e, finalThrow (oracle 3) = some e →
      apiCall oracle 3 =
        { outcome := .err e,
          sleeps := [retryWait 1 (oracle 1), retryWait 2 (oracle 2)] }) ∧
    (oracle 3 = .httpErr 429 →
      apiCall oracle 3 =
        { outcome := .undef,
          sleeps := [retryWait 1 (oracle 1), retryWait 2 (oracle 2),
            8000] }) ∧
    (∀ a, retryWait a (.httpErr 429 : LarkOutcome δ) = 1000 * 2 ^ a) ∧
    (∀ a (o : LarkOutcome δ), (∀ s, o = .httpErr s → s ≠ 429) →
      retryWait a o = 1000 * a) := by
  have step1 : apiAux oracle 3 1 3 =
      { outcome := (apiAux oracle 3 2 2).outcome,
        sleeps := retryWait 1 (oracle 1) :: (apiAux oracle 3 2 2).sleeps } := by
    simpa using apiAux_fail_step oracle 3 1 3 (by norm_num) h1 (by norm_num)
  have step2 : apiAux oracle 3 2 2 =
      { outcome := (apiAux oracle 3 3 1).outcome,
        sleeps := retryWait 2 (oracle 2) :: (apiAux oracle 3 3 1).sleeps } := by
    simpa using apiAux_fail_step oracle 3 2 2 (by norm_num) h2 (by norm_num)
  refine ⟨?_, ?_, ?_, ?_⟩
  · intro e he
    have fin := apiAux_final_throw oracle 3 1 e he (by norm_num)
    show apiAux oracle 3 1 3 = _
    rw [step1, step2, fin]
  · intro h429
    have fin := apiAux_final_429 oracle 3 h429
    show apiAux oracle 3 1 3 = _
    rw [step1, step2, fin]
    norm_num
  · intro a
    simp [retryWait]
  · intro a o ho
    cases o with
    | netFail e => rfl
    | httpErr s =>
      have : s ≠ 429 := ho s rfl
      simp [retryWait, this]
    | appResp c m d => rfl

/-- C2, counterexample: when every attempt receives HTTP 429, `apiCall`
does not throw at all — the loop sleeps 2000, 4000 and 8000 ms and then
falls through, returning `undefined`, contrary to the claim that the last
observed error is surfaced in this case. -/
theorem apiCall_all_429_returns_undefined_cex :
    (apiCall (fun _ => (.httpErr 429 : LarkOutcome Unit)) 3).outcome =
      .undef ∧
    (apiCall (fun _ => (.httpErr 429 : LarkOutcome Unit)) 3).sleeps =
      [2000, 4000, 8000] :=
  ⟨rfl, rfl⟩

/-- Witness for C2 with two rate-limited attempts followed by a network
failure: the waits are the doubled 2000 and 4000, and the final error is
thrown. -/
theorem apiCall_retry_policy_witness :
    apiCall (fun a => if a = 3 then (.netFail "boom" : LarkOutcome Unit)
        else .httpErr 429) 3 =
      { outcome := .err (.exn "boom"), sleeps := [2000, 4000] } :=
  (apiCall_retry_policy
    (fun a => if a = 3 then (.netFail "boom" : LarkOutcome Unit)
      else .httpErr 429) rfl rfl).1 (.exn "boom") rfl

/-! ## C6: the fixed type-code enumeration -/

/-- The type-code enumeration as the specification states it (text=1,
number=2, single_select=3, multi_select=4, date=5, date_time=5, checkbox=7,
member=11, phone=13, url=15, email=23, currency=25, rating=26); `none` for
any name outside the enumeration.  This definition follows the words of
the spec, to be compared with the mapper extracted from the source. -/
def specTypeCode (lowered : String) : Option Nat :=
  if lowered = "text" then some 1
  else if lowered = "number" then some 2
  else if lowered = "single_select" then some 3
  else if lowered = "multi_select" then some 4
  else if lowered = "date" then some 5
  else if lowered = "date_time" then some 5
  else if lowered = "checkbox" then some 7
  else if lowered = "member" then some 11
  else if lowered = "phone" then some 13
  else if lowered = "url" then some 15
  else if lowered = "email" then some 23
  else if lowered = "currency" then some 25
  else if lowered = "rating" then some 26
  else none

/-- The type code the caller reads from the lookup result
(`fieldPayload.type`): the code of an own payload; `undefined` both for an
inherited prototype member (functions and objects carry no `type` own
field) and for a missing key. -/
def mapHitCode : MapHit → Option Nat
  | .own p => some p.type
  | .proto _ => none
  | .undefined => none

/-- The `typeMap` lookup carries exactly the spec enumeration of type
codes: own payloads carry the enumerated code, prototype hits and misses
carry none. -/
theorem typeMapLookup_codes (lowered : String)
    (options : List (String × String)) :
    mapHitCode (typeMapLookup lowered options) = specTypeCode lowered := by
  unfold typeMapLookup specTypeCode
  simp only [apply_ite mapHitCode]
  simp [mapHitCode, ite_self]

/-- The default-options patch never changes the type code. -/
theorem getFieldProperty_map_type (t : String)
    (options : List (String × String)) :
    mapHitCode (getFieldProperty t options) =
      mapHitCode (typeMapLookup (jsToLower t) options) := by
  unfold getFieldProperty
  split
  · cases h : typeMapLookup (jsToLower t) options with
    | own p =>
      obtain ⟨ty, prop⟩ := p
      cases prop with
      | optionNames ns =>
        dsimp only
        split <;> rfl
      | noProp => rfl
      | numberFmt s => rfl
      | dateFmt s => rfl
      | memberMultiple b => rfl
      | currencyFmt a b => rfl
      | ratingSymbol s => rfl
    | proto n => rfl
    | undefined => rfl
  · rfl

/-- Lower-casing the two choice-type names is the identity. -/
theorem jsToLower_select_names :
    jsToLower "single_select" = "single_select" ∧
    jsToLower "multi_select" = "multi_select" := by
  constructor <;> rfl

/-- A lower-cased name that is neither an own key nor a prototype member
looks up to `undefined`. -/
theorem typeMapLookup_undefined (lowered : String)
    (options : List (String × String))
    (h1 : specTypeCode lowered = none)
    (h2 : protoMembers.contains lowered = false) :
    typeMapLookup lowered options = .undefined := by
  have hne : ∀ s, s ∈ ["text", "number", "single_select", "multi_select",
      "date", "date_time", "checkbox", "member", "phone", "url", "email",
      "currency", "rating"] → lowered ≠ s := by
    intro s hs hh
    subst hh
    fin_cases hs <;> exact absurd h1 (by decide)
  have hpr : ¬ (protoMembers.contains lowered = true) := by
    rw [h2]
    exact Bool.false_ne_true
  unfold typeMapLookup
  rw [if_neg (hne "text" (by decide)), if_neg (hne "number" (by decide)),
    if_neg (hne "single_select" (by decide)),
    if_neg (hne "multi_select" (by decide)),
    if_neg (hne "date" (by decide)), if_neg (hne "date_time" (by decide)),
    if_neg (hne "checkbox" (by decide)), if_neg (hne "member" (by decide)),
    if_neg (hne "phone" (by decide)), if_neg (hne "url" (by decide)),
    if_neg (hne "email" (by decide)), if_neg (hne "currency" (by decide)),
    if_neg (hne "rating" (by decide)), if_neg hpr]

/-- A lower-cased name that is a prototype member looks up to the
inherited member. -/
theorem typeMapLookup_proto (lowered : String)
    (options : List (String × String))
    (h : protoMembers.contains lowered = true) :
    typeMapLookup lowered options = .proto lowered := by
  have hmem : lowered ∈ protoMembers := by
    simpa using h
  simp only [protoMembers, List.mem_cons, List.mem_singleton,
    List.not_mem_nil, or_false] at hmem
  rcases hmem with rfl | rfl | rfl | rfl | rfl | rfl | rfl | rfl | rfl |
    rfl | rfl | rfl <;> rfl

/-- C6, counterexample: the name constructor is outside the enumeration,
yet the lookup `typeMap[...]` hits the inherited `Object.prototype`
member — a truthy value, not the `undefined` skip signal, so the caller
does not skip the field; likewise for __proto__. -/
theorem getFieldProperty_prototype_chain_cex :
    getFieldProperty "constructor" [] = .proto "constructor" ∧
    isSkipSignal (getFieldProperty "constructor" []) = false ∧
    getFieldProperty "__proto__" [] = .proto "__proto__" ∧
    specTypeCode "constructor" = none ∧
    specTypeCode "__proto__" = none := by
  decide

/-- C6, amended: for every supported type name (matched
case-insensitively) the returned mapping carries exactly the enumerated
type code (text=1, number=2, single_select=3, multi_select=4, date=5,
date_time=5, checkbox=7, member=11, phone=13, url=15, email=23,
currency=25, rating=26); date and date_time share code 5 and are
distinguished only by their format-string property.  A name outside the
enumeration yields the no-mapping (undefined) skip signal ONLY when its
lower-casing is also not an `Object.prototype` member name; a name whose
lower-casing is such a member (in particular `constructor` and
`__proto__`) returns the truthy inherited member instead, which the
caller does not skip. -/
theorem getFieldProperty_type_codes (t : String)
    (options : List (String × String)) :
    (mapHitCode (getFieldProperty t options) = specTypeCode (jsToLower t)) ∧
    (jsToLower t = "date" →
      getFieldProperty t options = .own ⟨5, .dateFmt "yyyy/MM/dd"⟩) ∧
    (jsToLower t = "date_time" →
      getFieldProperty t options = .own ⟨5, .dateFmt "yyyy/MM/dd HH:mm"⟩) ∧
    (specTypeCode (jsToLower t) = none →
      protoMembers.contains (jsToLower t) = false →
      getFieldProperty t options = .undefined) ∧
    (protoMembers.contains (jsToLower t) = true →
      getFieldProperty t options = .proto (jsToLower t) ∧
      isSkipSignal (getFieldProperty t options) = false) := by
  have hmap := typeMapLookup_codes (jsToLower t) options
  have hty := getFieldProperty_map_type t options
  refine ⟨hty.trans hmap, ?_, ?_, ?_, ?_⟩
  · intro hd
    have hsel : ¬ (t = "single_select" ∨ t = "multi_select") := by
      rintro (rfl | rfl) <;> simp_all [jsToLower_select_names]
    have hres : typeMapLookup (jsToLower t) options =
        .own ⟨5, .dateFmt "yyyy/MM/dd"⟩ := by
      rw [hd]; rfl
    simp [getFieldProperty, hsel, hres]
  · intro hd
    have hsel : ¬ (t = "single_select" ∨ t = "multi_select") := by
      rintro (rfl | rfl) <;> simp_all [jsToLower_select_names]
    have hres : typeMapLookup (jsToLower t) options =
        .own ⟨5, .dateFmt "yyyy/MM/dd HH:mm"⟩ := by
      rw [hd]; rfl
    simp [getFieldProperty, hsel, hres]
  · intro hnone hproto
    have hres := typeMapLookup_undefined (jsToLower t) options hnone hproto
    simp only [getFieldProperty, hres]
    split <;> rfl
  · intro hproto
    have hres := typeMapLookup_proto (jsToLower t) options hproto
    have hsel : ¬ (t = "single_select" ∨ t = "multi_select") := by
      rintro (rfl | rfl) <;> exact absurd hproto (by decide)
    constructor
    · simp [getFieldProperty, hres, hsel]
    · simp [getFieldProperty, hres, hsel, isSkipSignal]

/-- Witness for C6: the mixed-case name Date maps to code 5 with the
date-only format string, and the mixed-case name Constructor — outside the
enumeration — hits the prototype chain instead of being skipped. -/
theorem getFieldProperty_type_codes_witness :
    getFieldProperty "Date" [] = .own ⟨5, .dateFmt "yyyy/MM/dd"⟩ ∧
    getFieldProperty "Constructor" [] = .proto "constructor" :=
  ⟨(getFieldProperty_type_codes "Date" []).2.1 (by decide),
   ((getFieldProperty_type_codes "Constructor" []).2.2.2.2 (by decide)).1⟩

/-! ## Helper lemmas on the provisioning loop -/

/-- Default used with `List.getD` when indexing result lists. -/
def dummyResult : TableResult :=
  { tableName := "", status := "", tableId := none, fieldsCreated := none,
    recordsAdded := none, error := none }

/-- Default used with `List.getD` when indexing table lists. -/
def dummyTable : TableSpec :=
  { name := "", fields := [], sampleDataCount := 0 }

/-- The loop records exactly one outcome per table. -/
theorem provisionTables_length (orc : Orc) (ts : List TableSpec) (i : Nat) :
    (provisionTables orc ts i).length = ts.length := by
  induction ts generalizing i with
  | nil => rfl
  | cons t rest ih => simp [provisionTables, ih]

/-- The j-th outcome is the processing of the j-th table alone. -/
theorem provisionTables_getD (orc : Orc) (ts : List TableSpec)
    (i0 j : Nat) (h : j < ts.length) :
    (provisionTables orc ts i0).getD j dummyResult =
      processTable orc (i0 + j) (ts.getD j dummyTable) := by
  induction ts generalizing i0 j with
  | nil => simp at h
  | cons t rest ih =>
    cases j with
    | zero => simp [provisionTables]
    | succ n =>
      have hn : n < rest.length := by simpa using h
      show (provisionTables orc rest (i0 + 1)).getD n dummyResult = _
      rw [ih (i0 + 1) n hn]
      congr 1
      omega

/-- Every recorded outcome is Success or Failed. -/
theorem processTable_status (orc : Orc) (tIdx : Nat) (t : TableSpec) :
    (processTable orc tIdx t).status = "Success" ∨
    (processTable orc tIdx t).status = "Failed" := by
  unfold processTable
  cases orc.createTable tIdx <;> simp

/-- Every entry of the results list is Success or Failed. -/
theorem provisionTables_status_mem (orc : Orc) (ts : List TableSpec)
    (i : Nat) :
    ∀ r ∈ provisionTables orc ts i,
      r.status = "Success" ∨ r.status = "Failed" := by
  induction ts generalizing i with
  | nil => intro r hr; simp [provisionTables] at hr
  | cons t rest ih =>
    intro r hr
    simp only [provisionTables, List.mem_cons] at hr
    rcases hr with rfl | hr
    · exact processTable_status orc i t
    · exact ih (i + 1) r hr

/-- When every field-creation call throws, no field is counted. -/
theorem countFields_all_throw (orc : Orc) (tIdx : Nat)
    (fields : List FieldSpec)
    (h : ∀ k, (orc.createField tIdx k).isSome = true) :
    countFields orc tIdx fields = 0 := by
  suffices hgen : ∀ (ps : List (Nat × FieldSpec)) (n : Nat),
      ps.foldl (fun n jf =>
        match getFieldProperty jf.2.type jf.2.options with
        | .undefined => n
        | _ =>
          match orc.createField tIdx jf.1 with
          | some _ => n
          | none => n + 1) n = n by
    exact hgen fields.enum 0
  intro ps
  induction ps with
  | nil => intro n; rfl
  | cons jf rest ih =>
    intro n
    have hcall : (match orc.createField tIdx jf.1 with
        | some _ => n
        | none => n + 1) = n := by
      cases hc : orc.createField tIdx jf.1 with
      | some m => rfl
      | none => have hk := h jf.1; rw [hc] at hk; simp at hk
    have step : (match getFieldProperty jf.2.type jf.2.options with
        | .undefined => n
        | _ =>
          match orc.createField tIdx jf.1 with
          | some _ => n
          | none => n + 1) = n := by
      cases getFieldProperty jf.2.type jf.2.options with
      | undefined => rfl
      | own p => exact hcall
      | proto nm => exact hcall
    simp only [List.foldl_cons]
    rw [step]
    exact ih n

/-! ## C4: per-table failure isolation -/

/-- C4 (confirmed): the orchestrator records exactly one outcome per table
and a failure of one table never aborts the others — the j-th outcome is a
function of table j and its own calls alone; a table whose creation call
threw is recorded Failed with that error; a table whose creation call
succeeded is recorded Success, and stays Success with fieldsCreated = 0
even when every one of its field-creation calls throws. -/
theorem provisioning_isolates_table_failures (orc : Orc)
    (tables : List TableSpec) :
    ((provisionTables orc tables 0).length = tables.length) ∧
    (∀ j, j < tables.length →
      (provisionTables orc tables 0).getD j dummyResult =
        processTable orc j (tables.getD j dummyTable)) ∧
    (∀ j, j < tables.length → ∀ msg, orc.createTable j = .threw msg →
      ((provisionTables orc tables 0).getD j dummyResult).status =
        "Failed" ∧
      ((provisionTables orc tables 0).getD j dummyResult).error =
        some msg) ∧
    (∀ j, j < tables.length → ∀ tid, orc.createTable j = .created tid →
      ((provisionTables orc tables 0).getD j dummyResult).status =
        "Success") ∧
    (∀ j, j < tables.length → ∀ tid, orc.createTable j = .created tid →
      (∀ k, (orc.createField j k).isSome = true) →
      ((provisionTables orc tables 0).getD j dummyResult).fieldsCreated =
        some 0 ∧
      ((provisionTables orc tables 0).getD j dummyResult).status =
        "Success") := by
  have hget : ∀ j, j < tables.length →
      (provisionTables orc tables 0).getD j dummyResult =
        processTable orc j (tables.getD j dummyTable) := by
    intro j hj
    simpa using provisionTables_getD orc tables 0 j hj
  refine ⟨provisionTables_length orc tables 0, hget, ?_, ?_, ?_⟩
  · intro j hj msg hmsg
    rw [hget j hj]
    unfold processTable
    rw [hmsg]
    exact ⟨rfl, rfl⟩
  · intro j hj tid htid
    rw [hget j hj]
    unfold processTable
    rw [htid]
  · intro j hj tid htid hfields
    rw [hget j hj]
    unfold processTable
    rw [htid]
    simp [countFields_all_throw orc j _ hfields]

/-- Concrete provisioning oracle for witnesses: table 1 fails to create,
every other table creates, every field-creation call throws. -/
def cOrc : Orc :=
  { createTable := fun i =>
      if i = 1 then .threw "boom" else .created ("t" ++ toString i),
    createField := fun _ _ => some "field failed",
    batchCreate := fun _ _ => some ["r1"],
    dateVal := fun _ _ _ => 0 }

/-- Concrete three-table schema for witnesses. -/
def cTables : List TableSpec :=
  [{ name := "T0", fields := [{ name := "f", type := "text", options := [] }],
     sampleDataCount := 3 },
   { name := "T1", fields := [{ name := "f", type := "text", options := [] }],
     sampleDataCount := 3 },
   { name := "T2", fields := [{ name := "f", type := "text", options := [] }],
     sampleDataCount := 3 }]

/-- Witness for C4: with table 1 failing and all field creations throwing,
tables 0 and 2 still come out Success (with 0 fields), table 1 Failed. -/
theorem provisioning_isolates_table_failures_witness :
    ((provisionTables cOrc cTables 0).getD 0 dummyResult).status =
      "Success" ∧
    ((provisionTables cOrc cTables 0).getD 1 dummyResult).status =
      "Failed" ∧
    ((provisionTables cOrc cTables 0).getD 2 dummyResult).status =
      "Success" ∧
    ((provisionTables cOrc cTables 0).getD 0 dummyResult).fieldsCreated =
      some 0 := by
  have h := provisioning_isolates_table_failures cOrc cTables
  refine ⟨?_, ?_, ?_, ?_⟩
  · exact h.2.2.2.1 0 (by decide) ("t" ++ toString 0) rfl
  · exact (h.2.2.1 1 (by decide) "boom" rfl).1
  · exact h.2.2.2.1 2 (by decide) ("t" ++ toString 2) rfl
  · exact (h.2.2.2.2 0 (by decide) ("t" ++ toString 0) rfl
      (fun _ => rfl)).1

/-! ## C8: all-null rows are dropped; empty batches make no call -/

/-- C8 (confirmed): a synthesized row whose fields all came out null is
never part of the batch list (every submitted row has at least one field),
and when no rows remain after the filtering, `addSampleRecords` issues no
`batch_create` call and reports an empty inserted-records list. -/
theorem addSampleRecords_drops_null_rows (bc : Nat → Option (List String))
    (fields : List FieldSpec) (dv : Nat → Nat → Int) :
    (∀ (n : Nat) row, row ∈ buildRecords fields n dv → row ≠ []) ∧
    (∀ (count : Int), buildRecords fields count.toNat dv = [] →
      addSampleRecords bc fields count dv =
        { records := [], apiCalls := 0 }) := by
  constructor
  · have hgen : ∀ (l : List Nat) (acc : List (List (String × DummyVal))),
        (∀ r ∈ acc, r ≠ []) →
        ∀ row ∈ l.foldl (fun acc i =>
            let row := buildRow fields i (dv i)
            if row.length > 0 then acc ++ [row] else acc) acc,
          row ≠ [] := by
      intro l
      induction l with
      | nil => intro acc hacc row hrow; exact hacc row hrow
      | cons i rest ih =>
        intro acc hacc row hrow
        refine ih _ ?_ row hrow
        intro r hr
        by_cases hlen : (buildRow fields i (dv i)).length > 0
        · simp only [hlen, if_pos, List.mem_append, List.mem_singleton] at hr
          rcases hr with hr | rfl
          · exact hacc r hr
          · intro hnil
            rw [hnil] at hlen
            simp at hlen
        · simp only [hlen, if_neg, not_false_iff] at hr
          exact hacc r hr
    intro n row hrow
    exact hgen (List.range n) [] (by intro r hr; simp at hr) row hrow
  · intro count h
    unfold addSampleRecords
    by_cases hc : count ≤ 0 ∨ fields.length = 0
    · rw [if_pos hc]
    · rw [if_neg hc]
      simp [h]

/-- Witness for C8: a single field of unsupported type synthesizes null in
every row, so no record survives and no call is made. -/
theorem addSampleRecords_drops_null_rows_witness :
    addSampleRecords (fun _ => some ["r"])
      [{ name := "f1", type := "mystery", options := [] }] 5
      (fun _ _ => 0) = { records := [], apiCalls := 0 } :=
  (addSampleRecords_drops_null_rows (fun _ => some ["r"])
    [{ name := "f1", type := "mystery", options := [] }]
    (fun _ _ => 0)).2 5 rfl

/-! ## C9: request validation happens before any remote interaction -/

/-- C9 (confirmed): a missing, empty or whitespace-only prompt and a prompt
longer than 2000 characters are each rejected with a 500 error response
before the AI is called (the recorded interaction trace is empty), and a
generated schema with more than 10 tables is rejected with a 500 error
response after the AI call but before the token, base-creation or any
table call — no remote resource is created for a rejected request. -/
theorem handleApiPost_validation (env : Env) :
    (handleApiPost none env =
      (.errResp "指示内容を入力してください。", [])) ∧
    (∀ p, (jsTrim p).length = 0 →
      handleApiPost (some p) env =
        (.errResp "指示内容を入力してください。", [])) ∧
    (∀ p, (jsTrim p).length ≠ 0 → p.length > 2000 →
      handleApiPost (some p) env =
        (.errResp "指示内容が長すぎます。2000文字以内で入力してください。", [])) ∧
    (∀ p bn tabs, (jsTrim p).length ≠ 0 → ¬ p.length > 2000 →
      env.ai = .ok bn tabs → bn ≠ "" → tabs.length > 10 →
      handleApiPost (some p) env =
        (.errResp "テーブル数が多すぎます。10個以下になるよう指示内容を調整してください。",
         [.aiCall])) := by
  refine ⟨?_, ?_, ?_, ?_⟩
  · simp [handleApiPost]
    decide
  · intro p hp
    simp [handleApiPost, hp]
    decide
  · intro p hp hlen
    have hne : ¬ (p = "" ∨ (jsTrim p).length = 0) := by
      rintro (rfl | h)
      · exact hp (by decide)
      · exact hp h
    simp [handleApiPost, hne, hlen]
    decide
  · intro p bn tabs hp hlen hai hbn hcount
    have hne : ¬ (p = "" ∨ (jsTrim p).length = 0) := by
      rintro (rfl | h)
      · exact hp (by decide)
      · exact hp h
    have hne2 : ¬ (bn = "" ∨ tabs.length = 0) := by
      rintro (rfl | h)
      · exact hbn rfl
      · omega
    simp only [handleApiPost]
    rw [if_neg hne, if_neg hlen, hai]
    simp only []
    rw [if_neg hne2, if_pos hcount]
    decide

/-- Concrete request environment for witnesses. -/
def cEnv : Env :=
  { ai := .ok "B" cTables, token := .ok "tok",
    base := .created "app" "url", orc := cOrc }

/-- Witness for C9: a whitespace-only prompt is rejected with the empty
trace. -/
theorem handleApiPost_validation_witness :
    handleApiPost (some "   ") cEnv =
      (.errResp "指示内容を入力してください。", []) :=
  (handleApiPost_validation cEnv).2.1 "   " (by decide)

/-! ## C10: shape of the success response -/

/-- On a results list whose statuses are all Success or Failed, the two
filtered counts sum to the list length. -/
theorem filter_status_sum (l : List TableResult)
    (h : ∀ r ∈ l, r.status = "Success" ∨ r.status = "Failed") :
    (l.filter (fun r => r.status = "Success")).length +
      (l.filter (fun r => r.status = "Failed")).length = l.length := by
  induction l with
  | nil => rfl
  | cons r rest ih =>
    have hr := h r (List.mem_cons_self r rest)
    have hrest : ∀ x ∈ rest, x.status = "Success" ∨ x.status = "Failed" :=
      fun x hx => h x (List.mem_cons_of_mem r hx)
    have dSF : ¬ (("Success" : String) = "Failed") := by decide
    have dFS : ¬ (("Failed" : String) = "Success") := by decide
    rcases hr with hs | hf
    · have := ih hrest
      simp only [List.filter_cons, hs]
      simp [dSF]
      omega
    · have := ih hrest
      simp only [List.filter_cons, hf]
      simp [dFS]
      omega

/-- C10 (confirmed): every success response carries exactly one detail
entry per schema table, each detail status is Success or Failed, the
summary totalTables equals the number of schema tables, and
successfulTables + failedTables = totalTables. -/
theorem handleApiPost_summary_invariant
    (p : String) (env : Env) (bn : String) (tabs : List TableSpec)
    (tok app url : String)
    (hp1 : (jsTrim p).length ≠ 0) (hp2 : ¬ p.length > 2000)
    (hai : env.ai = .ok bn tabs) (hbn : bn ≠ "") (hne : tabs.length ≠ 0)
    (hcount : ¬ tabs.length > 10)
    (htok : env.token = .ok tok) (hbase : env.base = .created app url) :
    (handleApiPost (some p) env).1 =
      .okResp bn url
        { totalTables := tabs.length,
          successfulTables := ((provisionTables env.orc tabs 0).filter
            (fun r => r.status = "Success")).length,
          failedTables := ((provisionTables env.orc tabs 0).filter
            (fun r => r.status = "Failed")).length }
        (provisionTables env.orc tabs 0) ∧
    (provisionTables env.orc tabs 0).length = tabs.length ∧
    (∀ r ∈ provisionTables env.orc tabs 0,
      r.status = "Success" ∨ r.status = "Failed") ∧
    ((provisionTables env.orc tabs 0).filter
        (fun r => r.status = "Success")).length +
      ((provisionTables env.orc tabs 0).filter
        (fun r => r.status = "Failed")).length = tabs.length := by
  have hne1 : ¬ (p = "" ∨ (jsTrim p).length = 0) := by
    rintro (rfl | h)
    · exact hp1 (by decide)
    · exact hp1 h
  have hne2 : ¬ (bn = "" ∨ tabs.length = 0) := by
    rintro (rfl | h)
    · exact hbn rfl
    · exact hne h
  have hstat := provisionTables_status_mem env.orc tabs 0
  refine ⟨?_, provisionTables_length env.orc tabs 0, hstat, ?_⟩
  · simp [handleApiPost, hne1, hp2, hai, hne2, hcount, htok, hbase]
    rw [if_neg hne2]
  · rw [filter_status_sum _ hstat]
    exact provisionTables_length env.orc tabs 0

/-- Witness for C10 at a concrete request: three tables, one failing. -/
theorem handleApiPost_summary_invariant_witness :
    (handleApiPost (some "hello") cEnv).1 =
      .okResp "B" "url"
        { totalTables := cTables.length,
          successfulTables := ((provisionTables cEnv.orc cTables 0).filter
            (fun r => r.status = "Success")).length,
          failedTables := ((provisionTables cEnv.orc cTables 0).filter
            (fun r => r.status = "Failed")).length }
        (provisionTables cEnv.orc cTables 0) ∧
    (provisionTables cEnv.orc cTables 0).length = cTables.length :=
  ⟨(handleApiPost_summary_invariant "hello" cEnv "B" cTables "tok" "app"
      "url" (by decide) (by decide) rfl (by decide) (by decide) (by decide)
      rfl rfl).1,
   (handleApiPost_summary_invariant "hello" cEnv "B" cTables "tok" "app"
      "url" (by decide) (by decide) rfl (by decide) (by decide) (by decide)
      rfl rfl).2.1⟩

end LarkBaseTool
